import Mathlib

/-!
Verification development for `bloominlabs/tail`, package `watch`.

Shallow embedding of

* `watch/inotify_tracker.go` : the shared `InotifyTracker` (the dispatcher),
* `watch/inotify.go`         : `InotifyFileWatcher` (the push engine),
* `watch/polling.go`         : `PollingFileWatcher` (the polling engine).

Conventions of the embedding

* A Go channel is represented by its identity, a natural number drawn from an
  allocator (`nextChan`); `make(chan ...)` returns the next free identity.
* A Go map `map[string][]T` is a function `String → Option (List T)`; `none`
  is an absent key (reading it yields the nil slice), `some l` a present key.
* `close(ch)` appends `ch` to the log `closed`.
* Calls to `fsnotify.Watcher.Add` / `Remove` are appended to the log `osCalls`;
  their outcome is an input of the operation issuing them (`none` = success,
  `some e` = the error `e`), and the set of registered paths is `watches`.
* `int64` sizes are integers; the code only compares them.
-/

namespace Watch

/-! ## Library functions used by the package -/

deriving instance DecidableEq for Except

/-- Go channel identity. -/
abbrev Chan := Nat

/-- The two functions of `path/filepath` used by the dispatcher. -/
structure PathLib where
  /-- Function `filepath.Clean`. -/
  Clean : String → String
  /-- Function `filepath.Dir`. -/
  Dir : String → String

/-- Function `slices.Index(s, v)`: position of the first occurrence of `v`,
`none` standing for the result `-1`. -/
def slicesIndex : List Chan → Chan → Option Nat
  | [], _ => none
  | x :: xs, v => if x = v then some 0 else (slicesIndex xs v).map (· + 1)

/-- Function `slices.Delete(s, i, i+1)`. -/
def slicesDelete (s : List Chan) (i : Nat) : List Chan := s.eraseIdx i

/-! ## `inotify_tracker.go` -/

/-- A call issued to the `fsnotify.Watcher`. -/
inductive OsCall where
  | add (path : String)
  | remove (path : String)
  deriving DecidableEq, Repr

/-- The struct `Watcher`. -/
structure Watcher where
  eventsChan : Chan
  filename : String
  deriving DecidableEq, Repr

/-- The struct `InotifyTracker` together with the environment it acts on. -/
structure InotifyTracker where
  /-- Field `broadcastChannels` (the spec's `fanout`). -/
  broadcastChannels : String → Option (List Chan)
  /-- Field `closeChannels` (the spec's `close_signals`). -/
  closeChannels : String → Option (List Chan)
  /-- Paths currently registered with the field `watcher`. -/
  watches : List String
  /-- Log of the `Add` / `Remove` calls issued to the field `watcher`. -/
  osCalls : List OsCall
  /-- Log of the channels on which `close` was called. -/
  closed : List Chan
  /-- Allocator of `make(chan ...)`. -/
  nextChan : Nat

/-- The state built by `goRun`: both maps empty, nothing registered. -/
def goRun : InotifyTracker where
  broadcastChannels := fun _ => none
  closeChannels := fun _ => none
  watches := []
  osCalls := []
  closed := []
  nextChan := 0

/-- Map assignment `m[k] = v`. -/
def mapSet (m : String → Option (List Chan)) (k : String) (v : List Chan) :
    String → Option (List Chan) :=
  fun q => if q = k then some v else m q

/-- Builtin `delete(m, k)`. -/
def mapDelete (m : String → Option (List Chan)) (k : String) :
    String → Option (List Chan) :=
  fun q => if q = k then none else m q

/-- Map read `m[k]`: the nil (empty) slice for an absent key. -/
def mapGet (m : String → Option (List Chan)) (k : String) : List Chan :=
  (m k).getD []

/-- Method `fsnotify.Watcher.Add` with outcome `osErr`. -/
def watcherAdd (s : InotifyTracker) (path : String) (osErr : Option String) :
    InotifyTracker :=
  { s with
    osCalls := s.osCalls ++ [OsCall.add path]
    watches := match osErr with
      | none => if path ∈ s.watches then s.watches else s.watches ++ [path]
      | some _ => s.watches }

/-- Method `fsnotify.Watcher.Remove` with outcome `osErr`. -/
def watcherRemove (s : InotifyTracker) (path : String) (osErr : Option String) :
    InotifyTracker :=
  { s with
    osCalls := s.osCalls ++ [OsCall.remove path]
    watches := match osErr with
      | none => s.watches.erase path
      | some _ => s.watches }

/-- Method `addWatcher` (lines 181-201). -/
def addWatcher (s : InotifyTracker) (watcher : Watcher) (osErr : Option String) :
    InotifyTracker × Option String :=
  let bc := mapGet s.broadcastChannels watcher.filename ++ [watcher.eventsChan]
  let cc := mapGet s.closeChannels watcher.filename ++ [s.nextChan]
  let s1 : InotifyTracker :=
    { s with
      broadcastChannels := mapSet s.broadcastChannels watcher.filename bc
      closeChannels := mapSet s.closeChannels watcher.filename cc
      nextChan := s.nextChan + 1 }
  if bc.length ≤ 1 then
    match osErr with
    | some e => (watcherAdd s1 watcher.filename (some e), some ("failed to add watcher: " ++ e))
    | none => (watcherAdd s1 watcher.filename none, none)
  else (s1, none)

/-- Function `CreateWatcher` (lines 65-76): allocate the events channel, hand
the watcher to the coordinating task, return its answer. -/
def CreateWatcher (fp : PathLib) (s : InotifyTracker) (filename : String)
    (osErr : Option String) : InotifyTracker × Watcher × Option String :=
  let watcher : Watcher := { filename := fp.Clean filename, eventsChan := s.nextChan }
  let r := addWatcher { s with nextChan := s.nextChan + 1 } watcher osErr
  (r.1, watcher, r.2)

/-- The locked section of `RemoveWatcher` (lines 90-102), phase 1 of a
removal: `Except.error` when the index is `-1`. -/
def RemoveWatcherLocked (s : InotifyTracker) (watcher : Watcher) :
    Except String InotifyTracker :=
  match slicesIndex (mapGet s.broadcastChannels watcher.filename) watcher.eventsChan with
  | none => Except.error "could not find broadcast channel index"
  | some broadcastIndex =>
    let cc := mapGet s.closeChannels watcher.filename
    if cc.length > broadcastIndex then
      match cc.get? broadcastIndex with
      | some closeCh =>
        Except.ok { s with
          closed := s.closed ++ [closeCh]
          closeChannels := mapSet s.closeChannels watcher.filename (slicesDelete cc broadcastIndex) }
      | none => Except.ok s
    else Except.ok s

/-- Method `removeWatcher` (lines 154-179), phase 2 of a removal, run by the
coordinating task. -/
def removeWatcher (s : InotifyTracker) (watcher : Watcher) (osErr : Option String) :
    InotifyTracker × Option String :=
  let bc := mapGet s.broadcastChannels watcher.filename
  match slicesIndex bc watcher.eventsChan with
  | none => (s, some "could not find broadcast channel index")
  | some broadcastIndex =>
    match bc.get? broadcastIndex with
    | none => (s, some "could not find broadcast channel index")
    | some ch =>
      let s1 : InotifyTracker :=
        { s with
          closed := s.closed ++ [ch]
          broadcastChannels := mapSet s.broadcastChannels watcher.filename (slicesDelete bc broadcastIndex) }
      if (mapGet s1.broadcastChannels watcher.filename).length = 0 then
        match osErr with
        | some e =>
          (watcherRemove s1 watcher.filename (some e),
            some ("could not remove channel from fsnotify watcher: " ++ e))
        | none => (watcherRemove s1 watcher.filename none, none)
      else (s1, none)

/-- Function `RemoveWatcher` (lines 78-106) run without interleaving: phase 1,
then the request served by the coordinating task. -/
def RemoveWatcher (s : InotifyTracker) (watcher : Watcher) (osErr : Option String) :
    InotifyTracker × Option String :=
  match RemoveWatcherLocked s watcher with
  | Except.error e => (s, some e)
  | Except.ok s1 => removeWatcher s1 watcher osErr

/-- The locked section of `Cleanup` (lines 120-126). -/
def CleanupLocked (s : InotifyTracker) (filename : String) : InotifyTracker :=
  { s with
    closed := s.closed ++ mapGet s.closeChannels filename
    closeChannels := mapDelete s.closeChannels filename }

/-- Method `cleanup` (lines 203-220); the result of `Remove` is dropped. -/
def cleanup (s : InotifyTracker) (filename : String) (osErr : Option String) :
    InotifyTracker × Option String :=
  let s1 : InotifyTracker :=
    { s with
      closed := s.closed ++ mapGet s.broadcastChannels filename
      broadcastChannels := mapDelete s.broadcastChannels filename }
  (watcherRemove s1 filename osErr, none)

/-- Function `Cleanup` (lines 108-130) run without interleaving. -/
def Cleanup (s : InotifyTracker) (filename : String) (osErr : Option String) :
    InotifyTracker × Option String :=
  cleanup (CleanupLocked s filename) filename osErr

/-- One `select` of `broadcastEvent`: delivery to `ch` is attempted and is
abandoned when `done` is closed. -/
structure Delivery where
  ch : Chan
  done : Chan
  deriving DecidableEq, Repr

/-- The loop of `broadcastEvent` (lines 142-149), from position `index`. -/
def broadcastLoop (doneChs : List Chan) : Nat → List Chan → List Delivery
  | _, [] => []
  | index, ch :: rest =>
    (if doneChs.length > index then
      match doneChs.get? index with
      | some d => [{ ch := ch, done := d }]
      | none => []
    else []) ++ broadcastLoop doneChs (index + 1) rest

/-- Method `broadcastEvent` (lines 133-152): the `select` statements it runs,
in order, for an event named `eventName`. -/
def broadcastEvent (fp : PathLib) (s : InotifyTracker) (eventName : String) :
    List Delivery :=
  let name := fp.Clean eventName
  let parent := fp.Dir name
  let channels := mapGet s.broadcastChannels name ++ mapGet s.broadcastChannels parent
  let doneChs := mapGet s.closeChannels name ++ mapGet s.closeChannels parent
  broadcastLoop doneChs 0 channels

/-! ## Shared vocabulary of the two engines -/

/-- The three notifications of `FileChanges`: a call of `NotifyModified`,
`NotifyTruncated` or `NotifyDeleted`. -/
inductive Signal where
  | Modified
  | Truncated
  | Deleted
  deriving DecidableEq, Repr

/-- Classification of a failed `os.Stat` by the predicates the code applies:
`os.IsNotExist`, `os.IsPermission`, neither. -/
inductive StatErr where
  | notExist
  | permission
  | other
  deriving DecidableEq, Repr

/-- The parts of an `os.FileInfo` the code reads: the identity compared by
`os.SameFile`, `Size()` and `ModTime()` (the zero `time.Time` is `0`). -/
structure FileInfo where
  ident : Nat
  size : Int
  modTime : Nat
  deriving DecidableEq, Repr

/-- Function `os.SameFile`. -/
def sameFile (a b : FileInfo) : Bool := a.ident == b.ident

/-- A non-nil Go `error` returned by the engines. -/
inductive GoError where
  | ErrDying
  | stat (e : StatErr)
  | text (msg : String)
  deriving DecidableEq, Repr

/-- Result of one iteration of a background loop: the fields after it, the
notifications it posted, whether `RemoveWatcher` was called, and whether the
loop goes on (`false`: the goroutine has returned). -/
structure Iter (σ : Type) where
  st : σ
  signals : List Signal
  removed : Bool
  continues : Bool

/-- Modelled from the spec: `util.Fatal` (package `util` is not among the
sources); an unexpected stat error aborts the background task, without any
notification. -/
def utilFatal {σ : Type} (st : σ) : Iter σ :=
  { st := st, signals := [], removed := false, continues := false }

/-- Runs a background loop over the inputs of its successive iterations and
returns the notifications of each iteration that ran. -/
def runLoop {σ ι : Type} (body : σ → ι → Iter σ) : σ → List ι → List (List Signal)
  | _, [] => []
  | st, i :: rest =>
    let r := body st i
    r.signals :: (if r.continues then runLoop body r.st rest else [])

/-! ## `polling.go` -/

/-- The struct `PollingFileWatcher`; `PollDuration` in nanoseconds. -/
structure PollingFileWatcher where
  Filename : String
  Size : Int
  PollDuration : Int
  deriving DecidableEq, Repr

/-- Input of one iteration of the wait loop of `BlockUntilExists`: the result
of `os.Stat`, and whether `t.Dying()` is received before the timer of
`time.After(fw.PollDuration)` fires. -/
structure ExistsPoll where
  stat : Except StatErr FileInfo
  dyingFirst : Bool

/-- Method `PollingFileWatcher.BlockUntilExists` (lines 41-56): `none` while
the loop is still waiting after the given iterations, `some none` for the nil
error. -/
def PollingFileWatcher.BlockUntilExists : List ExistsPoll → Option (Option GoError)
  | [] => none
  | i :: rest =>
    match i.stat with
    | Except.ok _ => some none
    | Except.error e =>
      if e ≠ StatErr.notExist then some (some (GoError.stat e))
      else if i.dyingFirst then some (some GoError.ErrDying)
      else PollingFileWatcher.BlockUntilExists rest

/-- Variables of the goroutine of `PollingFileWatcher.ChangeEvents`. -/
structure PollVars where
  fw : PollingFileWatcher
  prevSize : Int
  prevModTime : Nat
  deriving DecidableEq, Repr

/-- Input of one iteration of the polling loop: whether `t.Dying()` is closed
at the check opening the iteration, and the result of `os.Stat`. -/
structure PollTick where
  dying : Bool
  stat : Except StatErr FileInfo

/-- Body of the loop of `PollingFileWatcher.ChangeEvents` (lines 75-122);
`windows` is `runtime.GOOS == "windows"`. -/
def pollIteration (windows : Bool) (origFi : FileInfo) (v : PollVars) (i : PollTick) :
    Iter PollVars :=
  if i.dying then { st := v, signals := [], removed := false, continues := false }
  else
    match i.stat with
    | Except.error e =>
      if e = StatErr.notExist ∨ (windows = true ∧ e = StatErr.permission) then
        { st := v, signals := [Signal.Deleted], removed := false, continues := false }
      else utilFatal v
    | Except.ok fi =>
      if sameFile origFi fi = false then
        { st := v, signals := [Signal.Deleted], removed := false, continues := false }
      else
        let fw1 : PollingFileWatcher := { v.fw with Size := fi.size }
        if v.prevSize > 0 ∧ v.prevSize > fw1.Size then
          { st := { v with fw := fw1, prevSize := fw1.Size },
            signals := [Signal.Truncated], removed := false, continues := true }
        else if v.prevSize > 0 ∧ v.prevSize < fw1.Size then
          { st := { v with fw := fw1, prevSize := fw1.Size },
            signals := [Signal.Modified], removed := false, continues := true }
        else if fi.modTime ≠ v.prevModTime then
          { st := { fw := fw1, prevSize := fw1.Size, prevModTime := fi.modTime },
            signals := [Signal.Modified], removed := false, continues := true }
        else
          { st := { v with fw := fw1, prevSize := fw1.Size },
            signals := [], removed := false, continues := true }

/-- Method `PollingFileWatcher.ChangeEvents` (lines 58-127): the error of the
initial `os.Stat`, or the notifications posted by the goroutine, tick by
tick. -/
def PollingFileWatcher.ChangeEvents (windows : Bool) (fw : PollingFileWatcher)
    (first : Except StatErr FileInfo) (pos : Int) (ticks : List PollTick) :
    Except GoError (List (List Signal)) :=
  match first with
  | Except.error e => Except.error (GoError.stat e)
  | Except.ok origFi =>
    let fw1 : PollingFileWatcher := { fw with Size := pos }
    Except.ok (runLoop (pollIteration windows origFi)
      { fw := fw1, prevSize := fw1.Size, prevModTime := 0 } ticks)

/-! ## `inotify.go` -/

/-- The struct `InotifyFileWatcher`. -/
structure InotifyFileWatcher where
  Filename : String
  Size : Int
  deriving DecidableEq, Repr

/-- Bit `fsnotify.Create`. -/
def opCreate : Nat := 1
/-- Bit `fsnotify.Write`. -/
def opWrite : Nat := 2
/-- Bit `fsnotify.Remove`. -/
def opRemove : Nat := 4
/-- Bit `fsnotify.Rename`. -/
def opRename : Nat := 8
/-- Bit `fsnotify.Chmod` (inotify's attribute change). -/
def opChmod : Nat := 16

/-- Outcome of the `select` of the wait loop of
`InotifyFileWatcher.BlockUntilExists`: a receive on the events channel (with
its `ok` flag and the two results of `filepath.Abs`), or `t.Dying()`. -/
inductive ExistsSelect where
  | event (ok : Bool) (evtName : Except String String) (fwFilename : Except String String)
  | dying

/-- The wait loop of `InotifyFileWatcher.BlockUntilExists` (lines 45-66). -/
def existsLoop : List ExistsSelect → Option (Option GoError)
  | [] => none
  | ExistsSelect.dying :: _ => some (some GoError.ErrDying)
  | ExistsSelect.event ok evtName fwFilename :: rest =>
    if ok = false then some (some (GoError.text "inotify watcher has been closed"))
    else
      match evtName with
      | Except.error e => some (some (GoError.text e))
      | Except.ok evtName =>
        match fwFilename with
        | Except.error e => some (some (GoError.text e))
        | Except.ok fwFilename =>
          if evtName = fwFilename then some none else existsLoop rest

/-- Method `InotifyFileWatcher.BlockUntilExists` (lines 29-67); `created` is
the error returned by `CreateWatcher` on the parent directory, and the result
of the deferred `RemoveWatcher` is dropped. -/
def InotifyFileWatcher.BlockUntilExists (created : Option String)
    (stat : Except StatErr FileInfo) (selects : List ExistsSelect) :
    Option (Option GoError) :=
  match created with
  | some e => some (some (GoError.text e))
  | none =>
    match stat with
    | Except.ok _ => some none
    | Except.error e =>
      if e ≠ StatErr.notExist then some (some (GoError.stat e))
      else existsLoop selects

/-- Input of one iteration of the loop of `InotifyFileWatcher.ChangeEvents`:
the events channel was closed, `t.Dying()` was received, or an event with
operation bits `op` was received (with the result `os.Stat` has at that
moment). -/
inductive PushInput where
  | closed
  | dying
  | event (op : Nat) (stat : Except StatErr FileInfo)

/-- Body of the loop of `InotifyFileWatcher.ChangeEvents` (lines 81-131). -/
def inotifyIteration (fw : InotifyFileWatcher) (i : PushInput) : Iter InotifyFileWatcher :=
  let prevSize := fw.Size
  match i with
  | PushInput.closed => { st := fw, signals := [], removed := true, continues := false }
  | PushInput.dying => { st := fw, signals := [], removed := true, continues := false }
  | PushInput.event op stat =>
    if op &&& opRemove = opRemove ∨ op &&& opRename = opRename then
      { st := fw, signals := [Signal.Deleted], removed := true, continues := false }
    else if op &&& opChmod = opChmod ∨ op &&& opWrite = opWrite then
      match stat with
      | Except.error e =>
        if e = StatErr.notExist then
          { st := fw, signals := [Signal.Deleted], removed := true, continues := false }
        else utilFatal fw
      | Except.ok fi =>
        let fw1 : InotifyFileWatcher := { fw with Size := fi.size }
        if prevSize > 0 ∧ prevSize > fw1.Size then
          { st := fw1, signals := [Signal.Truncated], removed := false, continues := true }
        else
          { st := fw1, signals := [Signal.Modified], removed := false, continues := true }
    else { st := fw, signals := [], removed := false, continues := true }

/-- Method `InotifyFileWatcher.ChangeEvents` (lines 69-135): the error of
`CreateWatcher`, or the notifications posted by the goroutine, event by
event. -/
def InotifyFileWatcher.ChangeEvents (fw : InotifyFileWatcher) (created : Option String)
    (pos : Int) (inputs : List PushInput) : Except GoError (List (List Signal)) :=
  match created with
  | some e => Except.error (GoError.text e)
  | none => Except.ok (runLoop inotifyIteration { fw with Size := pos } inputs)

/-! ## Auxiliary definitions for the statements -/

/-- Function `filepath.Dir` on a clean slash-separated path, as a list of
characters: everything before the last separator. -/
def dirChars : List Char → List Char
  | [] => []
  | c :: cs => if '/' ∈ cs then c :: dirChars cs else []

/-- The library `path/filepath` restricted to clean Unix paths: `Clean` leaves
them as they are and `Dir` drops the last component. -/
def unixPaths : PathLib where
  Clean := id
  Dir := fun p =>
    if '/' ∈ p.data then
      (match dirChars p.data with
        | [] => "/"
        | d => String.mk d)
    else "."

/-- The notifications posted during a call of `ChangeEvents`, in order. -/
def emitted : Except GoError (List (List Signal)) → List Signal
  | Except.ok l => l.flatten
  | Except.error _ => []

/-- `n` successive calls `CreateWatcher(P)` whose OS calls all succeed: the
final state and the watchers returned, in order of creation. -/
def createMany (fp : PathLib) (P : String) : Nat → InotifyTracker → InotifyTracker × List Watcher
  | 0, s => (s, [])
  | n + 1, s =>
    let r := CreateWatcher fp s P none
    let r1 := createMany fp P n r.1
    (r1.1, r.2.1 :: r1.2)

/-- Successive calls `RemoveWatcher` whose OS calls all succeed: the final
state and the errors returned. -/
def removeMany : InotifyTracker → List Watcher → InotifyTracker × List (Option String)
  | s, [] => (s, [])
  | s, w :: ws =>
    let r := RemoveWatcher s w none
    let r1 := removeMany r.1 ws
    (r1.1, r.2 :: r1.2)

/-- States reached from the state of `goRun` by operations that run to
completion one after the other: `CreateWatcher`, `RemoveWatcher` (both
phases), `Cleanup` (both phases). -/
inductive Settled : InotifyTracker → Prop where
  | init : Settled goRun
  | create (fp : PathLib) (s : InotifyTracker) (filename : String) (osErr : Option String) :
      Settled s → Settled (CreateWatcher fp s filename osErr).1
  | remove (s : InotifyTracker) (w : Watcher) (osErr : Option String) :
      Settled s → Settled (RemoveWatcher s w osErr).1
  | cleanup (s : InotifyTracker) (filename : String) (osErr : Option String) :
      Settled s → Settled (Cleanup s filename osErr).1

/-- The two tables agree on every path: the key is present in both or in
neither, and the two lists have the same length. -/
def Aligned (s : InotifyTracker) : Prop :=
  ∀ p, (s.broadcastChannels p).map List.length = (s.closeChannels p).map List.length

/-- A loop body is terminal on `Deleted` when an iteration posting `Deleted`
posts nothing else and ends the loop. -/
def DeletedStops {σ ι : Type} (body : σ → ι → Iter σ) : Prop :=
  ∀ st i, Signal.Deleted ∈ (body st i).signals →
    (body st i).signals = [Signal.Deleted] ∧ (body st i).continues = false

/-! ## Lemmas on the library functions -/

theorem slicesIndex_eq_none {l : List Chan} {v : Chan} :
    slicesIndex l v = none ↔ v ∉ l := by
  induction l with
  | nil => simp [slicesIndex]
  | cons x xs ih =>
    by_cases hx : x = v
    · simp [slicesIndex, hx]
    · have hx1 : ¬ v = x := fun h => hx h.symm
      simp [slicesIndex, hx, hx1, ih]

theorem slicesIndex_some {l : List Chan} {v : Chan} {i : Nat}
    (h : slicesIndex l v = some i) :
    i < l.length ∧ l.get? i = some v ∧ l.eraseIdx i = l.erase v := by
  induction l generalizing i with
  | nil => simp [slicesIndex] at h
  | cons x xs ih =>
    by_cases hx : x = v
    · simp [slicesIndex, hx] at h
      subst h
      simp [hx]
    · rw [slicesIndex, if_neg hx] at h
      cases hj : slicesIndex xs v with
      | none => rw [hj] at h; simp at h
      | some j =>
      rw [hj] at h
      simp only [Option.map_some', Option.some.injEq] at h
      subst h
      obtain ⟨h1, h2, h3⟩ := ih hj
      refine ⟨by simpa using h1, by simpa using h2, ?_⟩
      have hne : (x == v) = false := by simpa using hx
      simp [List.eraseIdx_cons_succ, h3, List.erase_cons, hne]

theorem slicesIndex_of_mem {l : List Chan} {v : Chan} (h : v ∈ l) :
    ∃ i, slicesIndex l v = some i := by
  cases hi : slicesIndex l v with
  | none => exact absurd h (slicesIndex_eq_none.mp hi)
  | some i => exact ⟨i, rfl⟩

theorem RemoveWatcher_not_found_aux (s : InotifyTracker) (w : Watcher) (osErr : Option String)
    (h : w.eventsChan ∉ mapGet s.broadcastChannels w.filename) :
    (RemoveWatcher s w osErr).1 = s := by
  simp [RemoveWatcher, RemoveWatcherLocked, slicesIndex_eq_none.mpr h]

/-! ## C2 : removal of an unknown subscriber -/

/-- C2: when the events channel of the watcher is not in
`broadcastChannels[filename]`, `RemoveWatcher` returns the error
"could not find broadcast channel index" (the spec's "subscriber not found")
and the whole state is the one before the call: both tables, the log of
closed channels (no close signal fired) and the log of OS calls (no `Remove`
issued) are unchanged; the request of phase 2 is never sent. -/
theorem RemoveWatcher_not_found (s : InotifyTracker) (w : Watcher) (osErr : Option String)
    (h : w.eventsChan ∉ mapGet s.broadcastChannels w.filename) :
    RemoveWatcherLocked s w = Except.error "could not find broadcast channel index" ∧
    (RemoveWatcher s w osErr).2 = some "could not find broadcast channel index" ∧
    (RemoveWatcher s w osErr).1 = s ∧
    (∀ p, (RemoveWatcher s w osErr).1.broadcastChannels p = s.broadcastChannels p) ∧
    (∀ p, (RemoveWatcher s w osErr).1.closeChannels p = s.closeChannels p) ∧
    (RemoveWatcher s w osErr).1.closed = s.closed ∧
    (RemoveWatcher s w osErr).1.osCalls = s.osCalls := by
  have hi := slicesIndex_eq_none.mpr h
  have h1 : RemoveWatcherLocked s w = Except.error "could not find broadcast channel index" := by
    simp [RemoveWatcherLocked, hi]
  have h2 : RemoveWatcher s w osErr = (s, some "could not find broadcast channel index") := by
    simp [RemoveWatcher, h1]
  simp [h1, h2]

/-- Witness of C2: the only subscriber of `/d/f` is removed twice, with
another subscriber on `/d`; the second removal fails and changes nothing. -/
theorem RemoveWatcher_not_found_witness :
    (RemoveWatcher (RemoveWatcher (addWatcher (addWatcher goRun ⟨0, "/d/f"⟩ none).1
        ⟨7, "/d"⟩ none).1 ⟨0, "/d/f"⟩ none).1 ⟨0, "/d/f"⟩ none).2
      = some "could not find broadcast channel index" ∧
    (RemoveWatcher (RemoveWatcher (addWatcher (addWatcher goRun ⟨0, "/d/f"⟩ none).1
        ⟨7, "/d"⟩ none).1 ⟨0, "/d/f"⟩ none).1 ⟨0, "/d/f"⟩ none).1.broadcastChannels "/d"
      = some [7] :=
  have h := RemoveWatcher_not_found
    (RemoveWatcher (addWatcher (addWatcher goRun ⟨0, "/d/f"⟩ none).1
        ⟨7, "/d"⟩ none).1 ⟨0, "/d/f"⟩ none).1 ⟨0, "/d/f"⟩ none (by decide)
  ⟨h.2.1, by rw [h.2.2.1]; decide⟩

/-! ## C3 : `Deleted` is terminal -/

theorem pollIteration_deletedStops (windows : Bool) (origFi : FileInfo) :
    DeletedStops (pollIteration windows origFi) := by
  intro v i
  unfold pollIteration utilFatal
  rcases i with ⟨dying, stat⟩
  cases stat <;> simp only <;> split_ifs <;> simp

theorem inotifyIteration_deletedStops : DeletedStops inotifyIteration := by
  intro fw i
  unfold inotifyIteration utilFatal
  cases i with
  | closed => simp
  | dying => simp
  | event op stat => cases stat <;> simp only <;> split_ifs <;> simp

/-- Shape of the notifications of a run: either no `Deleted` at all, or a
single `Deleted` in last position. -/
theorem runLoop_shape {σ ι : Type} (body : σ → ι → Iter σ) (hb : DeletedStops body)
    (st : σ) (ins : List ι) :
    Signal.Deleted ∉ (runLoop body st ins).flatten ∨
    ∃ pre, (runLoop body st ins).flatten = pre ++ [Signal.Deleted] ∧ Signal.Deleted ∉ pre := by
  induction ins generalizing st with
  | nil => left; simp [runLoop]
  | cons i rest ih =>
    by_cases hd : Signal.Deleted ∈ (body st i).signals
    · obtain ⟨h1, h2⟩ := hb st i hd
      right
      exact ⟨[], by simp [runLoop, h1, h2], by simp⟩
    · by_cases hc : (body st i).continues = true
      · rcases ih (body st i).st with h | ⟨pre, h, hpre⟩
        · left
          simp only [runLoop, hc, if_true, List.flatten_cons, List.mem_append, not_or]
          exact ⟨hd, h⟩
        · right
          refine ⟨(body st i).signals ++ pre, ?_, ?_⟩
          · simp only [runLoop, hc, if_true, List.flatten_cons, h, List.append_assoc]
          · simp only [List.mem_append, not_or]
            exact ⟨hd, hpre⟩
      · left
        simpa [runLoop, hc] using hd

theorem runLoop_stops {σ ι : Type} (body : σ → ι → Iter σ) (hb : DeletedStops body)
    (st : σ) (ins more : List ι)
    (h : Signal.Deleted ∈ (runLoop body st ins).flatten) :
    runLoop body st (ins ++ more) = runLoop body st ins := by
  induction ins generalizing st with
  | nil => simp [runLoop] at h
  | cons i rest ih =>
    by_cases hc : (body st i).continues = true
    · have hd : Signal.Deleted ∉ (body st i).signals := by
        intro hd
        have := (hb st i hd).2
        simp [hc] at this
      simp only [runLoop, hc, if_true, List.flatten_cons, List.mem_append] at h
      rcases h with h | h
      · exact absurd h hd
      · have e := ih _ h
        simp only [List.cons_append, runLoop, hc, if_true]
        exact congrArg _ e
    · simp [runLoop, hc]

theorem shape_count (l : List Signal)
    (h : Signal.Deleted ∉ l ∨ ∃ pre, l = pre ++ [Signal.Deleted] ∧ Signal.Deleted ∉ pre) :
    l.count Signal.Deleted ≤ 1 ∧
    ∀ pre post, l = pre ++ Signal.Deleted :: post → post = [] := by
  rcases h with h | ⟨p, rfl, hp⟩
  · refine ⟨by simp [List.count_eq_zero_of_not_mem h], ?_⟩
    intro pre post e
    exact absurd (by simp [e]) h
  · refine ⟨by simp [List.count_eq_zero_of_not_mem hp], ?_⟩
    intro pre post e
    rcases List.append_eq_append_iff.mp e with ⟨a, rfl, ha⟩ | ⟨c, rfl, hc⟩
    · cases a with
      | nil => simpa using ha
      | cons x a =>
        simp only [List.cons_append, List.cons.injEq] at ha
        have := ha.2
        simp at this
    · cases c with
      | nil => simpa using hc.symm
      | cons x c =>
        simp only [List.cons_append, List.cons.injEq] at hc
        exact absurd (by simp [← hc.1]) hp

/-- C3: for the polling engine and for the push engine, whatever the inputs
of the background task, the notifications it posts contain `Deleted` at most
once, nothing follows a `Deleted` (so no `Modified` and no `Truncated`), and
once `Deleted` has been posted the task has returned: further inputs are
never read. -/
theorem deleted_is_terminal (windows : Bool) (pfw : PollingFileWatcher)
    (first : Except StatErr FileInfo) (ifw : InotifyFileWatcher) (created : Option String)
    (pos : Int) (ticks : List PollTick) (inputs : List PushInput) :
    ((emitted (pfw.ChangeEvents windows first pos ticks)).count Signal.Deleted ≤ 1 ∧
      (∀ pre post, emitted (pfw.ChangeEvents windows first pos ticks)
          = pre ++ Signal.Deleted :: post → post = []) ∧
      (∀ more, Signal.Deleted ∈ emitted (pfw.ChangeEvents windows first pos ticks) →
        pfw.ChangeEvents windows first pos (ticks ++ more)
          = pfw.ChangeEvents windows first pos ticks)) ∧
    ((emitted (ifw.ChangeEvents created pos inputs)).count Signal.Deleted ≤ 1 ∧
      (∀ pre post, emitted (ifw.ChangeEvents created pos inputs)
          = pre ++ Signal.Deleted :: post → post = []) ∧
      (∀ more, Signal.Deleted ∈ emitted (ifw.ChangeEvents created pos inputs) →
        ifw.ChangeEvents created pos (inputs ++ more)
          = ifw.ChangeEvents created pos inputs)) := by
  constructor
  · cases first with
    | error e => simp [PollingFileWatcher.ChangeEvents, emitted]
    | ok origFi =>
      simp only [PollingFileWatcher.ChangeEvents, emitted]
      have hs := shape_count _ (runLoop_shape _ (pollIteration_deletedStops windows origFi)
        { fw := { pfw with Size := pos }, prevSize := pos, prevModTime := 0 } ticks)
      refine ⟨hs.1, hs.2, ?_⟩
      intro more hm
      rw [runLoop_stops _ (pollIteration_deletedStops windows origFi) _ _ _ hm]
  · cases created with
    | some e => simp [InotifyFileWatcher.ChangeEvents, emitted]
    | none =>
      simp only [InotifyFileWatcher.ChangeEvents, emitted]
      have hs := shape_count _ (runLoop_shape _ inotifyIteration_deletedStops
        { ifw with Size := pos } inputs)
      refine ⟨hs.1, hs.2, ?_⟩
      intro more hm
      rw [runLoop_stops _ inotifyIteration_deletedStops _ _ _ hm]

/-! ## C4 : polling, an unchanged file after a size change -/

/-- C4: the run of the polling loop from offset 0 that observes size 50 (time
1), then size 5 (time 2), then again size 5 at the same time 2, posts
`Modified`, `Truncated` and then `Modified` a second time: the tick that saw
the truncation left `prevModTime` at the time of the first tick, so the third
tick, although it observes the size and the time of the second, compares the
time with a stale value. With equal times on the first two ticks the third
tick posts nothing. -/
theorem polling_unchanged_tick_after_truncation :
    PollingFileWatcher.ChangeEvents false ⟨"/d/f", 0, 250000000⟩ (Except.ok ⟨7, 0, 1⟩) 0
        [⟨false, Except.ok ⟨7, 50, 1⟩⟩, ⟨false, Except.ok ⟨7, 5, 2⟩⟩,
          ⟨false, Except.ok ⟨7, 5, 2⟩⟩]
      = Except.ok [[Signal.Modified], [Signal.Truncated], [Signal.Modified]] ∧
    PollingFileWatcher.ChangeEvents false ⟨"/d/f", 0, 250000000⟩ (Except.ok ⟨7, 0, 1⟩) 0
        [⟨false, Except.ok ⟨7, 50, 1⟩⟩, ⟨false, Except.ok ⟨7, 5, 1⟩⟩,
          ⟨false, Except.ok ⟨7, 5, 1⟩⟩]
      = Except.ok [[Signal.Modified], [Signal.Truncated], []] := by
  constructor <;> decide

/-! ## C5 : polling, size comparison -/

/-- C5: a tick of the polling loop whose stat succeeds on the original file,
with `last` the previous-size variable of the loop (initialised from the
field `Size`, and equal to it after every such tick) and `new` the observed
size: if `last > 0` and `new < last` the tick posts exactly `Truncated`; if
`last > 0` and `new > last` it posts exactly `Modified`; in every case the
loop goes on with the field `Size` and the previous-size variable both equal
to `new`. -/
theorem polling_tick_size (windows : Bool) (origFi fi : FileInfo) (v : PollVars)
    (hsame : sameFile origFi fi = true) :
    (0 < v.prevSize ∧ fi.size < v.prevSize →
      (pollIteration windows origFi v ⟨false, Except.ok fi⟩).signals = [Signal.Truncated]) ∧
    (0 < v.prevSize ∧ v.prevSize < fi.size →
      (pollIteration windows origFi v ⟨false, Except.ok fi⟩).signals = [Signal.Modified]) ∧
    (pollIteration windows origFi v ⟨false, Except.ok fi⟩).st.fw.Size = fi.size ∧
    (pollIteration windows origFi v ⟨false, Except.ok fi⟩).st.prevSize = fi.size ∧
    (pollIteration windows origFi v ⟨false, Except.ok fi⟩).continues = true := by
  refine ⟨?_, ?_, ?_, ?_, ?_⟩
  · rintro ⟨h1, h2⟩
    simp [pollIteration, hsame, h1, h2]
  · rintro ⟨h1, h2⟩
    have h3 : ¬ fi.size < v.prevSize := by omega
    simp [pollIteration, hsame, h1, h2, h3]
  all_goals
    simp only [pollIteration, hsame]
    split_ifs <;> simp_all

/-- Witness of C5: previous size 50, observed size 5. -/
theorem polling_tick_size_witness :
    (pollIteration false ⟨7, 0, 1⟩ ⟨⟨"/d/f", 50, 250000000⟩, 50, 1⟩
        ⟨false, Except.ok ⟨7, 5, 2⟩⟩).signals = [Signal.Truncated] ∧
    (pollIteration false ⟨7, 0, 1⟩ ⟨⟨"/d/f", 50, 250000000⟩, 50, 1⟩
        ⟨false, Except.ok ⟨7, 5, 2⟩⟩).st.prevSize = 5 :=
  have h := polling_tick_size false ⟨7, 0, 1⟩ ⟨7, 5, 2⟩ ⟨⟨"/d/f", 50, 250000000⟩, 50, 1⟩
    (by decide)
  ⟨h.1 (by decide), h.2.2.2.1⟩

/-! ## C6 : push engine, translation of an event -/

/-- C6: translation of one raw event with bits `op` by the push engine, `p`
being the field `Size` before the event. With the remove or the rename bit:
`Deleted`, unsubscribe, stop, whatever the other bits. Otherwise, with the
write or the attribute-change bit: when the stat is not-found, `Deleted`,
unsubscribe, stop; when the stat gives size `n`, exactly one notification,
`Truncated` if `p > 0` and `n < p`, `Modified` otherwise, and `Size` becomes
`n`. With none of these bits: no notification and `Size` unchanged. Starting
size 100, a write event and size 10 give `Truncated` and `Size = 10`. -/
theorem inotify_event_translation (fw : InotifyFileWatcher) (op : Nat)
    (stat : Except StatErr FileInfo) :
    ((op &&& opRemove = opRemove ∨ op &&& opRename = opRename) →
      (inotifyIteration fw (PushInput.event op stat)).signals = [Signal.Deleted] ∧
      (inotifyIteration fw (PushInput.event op stat)).removed = true ∧
      (inotifyIteration fw (PushInput.event op stat)).continues = false) ∧
    (¬ (op &&& opRemove = opRemove ∨ op &&& opRename = opRename) →
      (op &&& opChmod = opChmod ∨ op &&& opWrite = opWrite) →
      (stat = Except.error StatErr.notExist →
        (inotifyIteration fw (PushInput.event op stat)).signals = [Signal.Deleted] ∧
        (inotifyIteration fw (PushInput.event op stat)).removed = true ∧
        (inotifyIteration fw (PushInput.event op stat)).continues = false) ∧
      (∀ fi, stat = Except.ok fi →
        (inotifyIteration fw (PushInput.event op stat)).signals
          = [if 0 < fw.Size ∧ fi.size < fw.Size then Signal.Truncated else Signal.Modified] ∧
        (inotifyIteration fw (PushInput.event op stat)).st.Size = fi.size ∧
        (inotifyIteration fw (PushInput.event op stat)).st.Filename = fw.Filename ∧
        (inotifyIteration fw (PushInput.event op stat)).continues = true)) ∧
    (¬ (op &&& opRemove = opRemove ∨ op &&& opRename = opRename) →
      ¬ (op &&& opChmod = opChmod ∨ op &&& opWrite = opWrite) →
      (inotifyIteration fw (PushInput.event op stat)).signals = [] ∧
      (inotifyIteration fw (PushInput.event op stat)).st = fw ∧
      (inotifyIteration fw (PushInput.event op stat)).continues = true) ∧
    (∀ (name : String) (ident modTime : Nat),
      (inotifyIteration ⟨name, 100⟩
        (PushInput.event opWrite (Except.ok ⟨ident, 10, modTime⟩))).signals
          = [Signal.Truncated] ∧
      (inotifyIteration ⟨name, 100⟩
        (PushInput.event opWrite (Except.ok ⟨ident, 10, modTime⟩))).st.Size = 10) := by
  refine ⟨?_, ?_, ?_, ?_⟩
  · intro h
    simp [inotifyIteration, h]
  · intro h1 h2
    refine ⟨?_, ?_⟩
    · intro hs
      simp [inotifyIteration, h1, h2, hs]
    · intro fi hs
      simp only [inotifyIteration, h1, h2, hs, if_true, if_false]
      split_ifs <;> simp
  · intro h1 h2
    simp [inotifyIteration, h1, h2]
  · intro name ident modTime
    constructor <;> simp [inotifyIteration, opWrite, opRemove, opRename, opChmod]

/-- Witness of C6: an event carrying the remove bit and the write bit. -/
theorem inotify_event_translation_witness :
    (inotifyIteration ⟨"/d/f", 100⟩ (PushInput.event 6 (Except.ok ⟨7, 10, 1⟩))).signals
      = [Signal.Deleted] :=
  ((inotify_event_translation ⟨"/d/f", 100⟩ 6 (Except.ok ⟨7, 10, 1⟩)).1
    (Or.inl (by decide))).1

/-! ## C8 : `BlockUntilExists` and a token that has already fired -/

/-- C8, as stated, fails: with the token already fired (`t.Dying()` is ready
at every `select`), a path that exists makes both engines return the nil
error, and a stat error other than not-found makes both return that error;
neither returns `tomb.ErrDying`. -/
theorem BlockUntilExists_no_cancellation_priority :
    PollingFileWatcher.BlockUntilExists [⟨Except.ok ⟨7, 0, 1⟩, true⟩] = some none ∧
    PollingFileWatcher.BlockUntilExists [⟨Except.error StatErr.permission, true⟩]
      = some (some (GoError.stat StatErr.permission)) ∧
    InotifyFileWatcher.BlockUntilExists none (Except.ok ⟨7, 0, 1⟩) [ExistsSelect.dying]
      = some none ∧
    InotifyFileWatcher.BlockUntilExists none (Except.error StatErr.permission)
        [ExistsSelect.dying]
      = some (some (GoError.stat StatErr.permission)) ∧
    PollingFileWatcher.BlockUntilExists [⟨Except.ok ⟨7, 0, 1⟩, true⟩]
      ≠ some (some GoError.ErrDying) ∧
    InotifyFileWatcher.BlockUntilExists none (Except.ok ⟨7, 0, 1⟩) [ExistsSelect.dying]
      ≠ some (some GoError.ErrDying) := by
  decide

/-- C8, amended: in both engines the stat comes before the first look at the
token. A call whose wait is cut by the token (polling: `t.Dying()` received
before the timer; push: the `select` takes `t.Dying()`) returns the nil error
when the stat succeeds, the stat error when it is not a not-found, and
`tomb.ErrDying` only when the stat is a not-found; the push engine returns
the error of `CreateWatcher` before anything else. -/
theorem BlockUntilExists_token_fired (stat : Except StatErr FileInfo)
    (rest : List ExistsPoll) (created : Option String) (selects : List ExistsSelect) :
    PollingFileWatcher.BlockUntilExists (⟨stat, true⟩ :: rest)
      = some (match stat with
          | Except.ok _ => none
          | Except.error e =>
            if e = StatErr.notExist then some GoError.ErrDying else some (GoError.stat e)) ∧
    InotifyFileWatcher.BlockUntilExists created stat (ExistsSelect.dying :: selects)
      = some (match created with
          | some e => some (GoError.text e)
          | none =>
            match stat with
            | Except.ok _ => none
            | Except.error e =>
              if e = StatErr.notExist then some GoError.ErrDying
              else some (GoError.stat e)) := by
  constructor
  · cases stat with
    | ok fi => simp [PollingFileWatcher.BlockUntilExists]
    | error e => cases e <;> simp [PollingFileWatcher.BlockUntilExists]
  · cases created with
    | some e => simp [InotifyFileWatcher.BlockUntilExists]
    | none =>
      cases stat with
      | ok fi => simp [InotifyFileWatcher.BlockUntilExists]
      | error e => cases e <;> simp [InotifyFileWatcher.BlockUntilExists, existsLoop]

/-! ## C9 : a failed OS registration -/

/-- C9: `CreateWatcher("/d/f")` with `Add` failing returns the error but
keeps the subscriber entry appended before the call of `Add`; the next
`CreateWatcher("/d/f")` finds a list of length 2, issues no `Add` and returns
the nil error: `/d/f` has two subscribers and no OS watch. -/
theorem CreateWatcher_failed_add_keeps_entry :
    (CreateWatcher unixPaths goRun "/d/f" (some "no space left on device")).2.2
      = some "failed to add watcher: no space left on device" ∧
    (CreateWatcher unixPaths goRun "/d/f" (some "no space left on device")).1.broadcastChannels
      "/d/f" = some [0] ∧
    (CreateWatcher unixPaths goRun "/d/f" (some "no space left on device")).1.watches = [] ∧
    (CreateWatcher unixPaths
      (CreateWatcher unixPaths goRun "/d/f" (some "no space left on device")).1
      "/d/f" none).2.2 = none ∧
    (CreateWatcher unixPaths
      (CreateWatcher unixPaths goRun "/d/f" (some "no space left on device")).1
      "/d/f" none).1.broadcastChannels "/d/f" = some [0, 2] ∧
    (CreateWatcher unixPaths
      (CreateWatcher unixPaths goRun "/d/f" (some "no space left on device")).1
      "/d/f" none).1.osCalls = [OsCall.add "/d/f"] ∧
    (CreateWatcher unixPaths
      (CreateWatcher unixPaths goRun "/d/f" (some "no space left on device")).1
      "/d/f" none).1.watches = [] := by
  decide

/-! ## C10 : broadcast between the two phases of a removal -/

/-- C10: two subscribers of `/d/f` (events channels 0 and 2, close channels 1
and 3, in this order in both tables); phase 1 of the removal of the first one
closes channel 1 and deletes it from `closeChannels`, which now holds `[3]`
against `[0, 2]` in `broadcastChannels`. A broadcast for `/d/f` in that state
runs a single `select`: it offers the event to channel 0, the subscriber
being removed, under the close channel 3 of the other subscriber, and it
skips channel 2, whose close channel 3 has not been closed. -/
theorem broadcast_between_removal_phases :
    (CreateWatcher unixPaths (CreateWatcher unixPaths goRun "/d/f" none).1
      "/d/f" none).1.broadcastChannels "/d/f" = some [0, 2] ∧
    (CreateWatcher unixPaths (CreateWatcher unixPaths goRun "/d/f" none).1
      "/d/f" none).1.closeChannels "/d/f" = some [1, 3] ∧
    broadcastEvent unixPaths (CreateWatcher unixPaths
      (CreateWatcher unixPaths goRun "/d/f" none).1 "/d/f" none).1 "/d/f"
      = [⟨0, 1⟩, ⟨2, 3⟩] ∧
    ∃ s, RemoveWatcherLocked (CreateWatcher unixPaths
        (CreateWatcher unixPaths goRun "/d/f" none).1 "/d/f" none).1 ⟨0, "/d/f"⟩
        = Except.ok s ∧
      s.broadcastChannels "/d/f" = some [0, 2] ∧
      s.closeChannels "/d/f" = some [3] ∧
      s.closed = [1] ∧
      broadcastEvent unixPaths s "/d/f" = [⟨0, 3⟩] := by
  refine ⟨by decide, by decide, by decide, ?_⟩
  refine ⟨_, rfl, ?_⟩
  decide

/-! ## Effect of the dispatcher operations on the two tables -/

theorem addWatcher_broadcastChannels (s : InotifyTracker) (w : Watcher) (osErr : Option String) :
    (addWatcher s w osErr).1.broadcastChannels
      = mapSet s.broadcastChannels w.filename
          (mapGet s.broadcastChannels w.filename ++ [w.eventsChan]) := by
  unfold addWatcher
  simp only []
  split_ifs <;> cases osErr <;> rfl

theorem addWatcher_closeChannels (s : InotifyTracker) (w : Watcher) (osErr : Option String) :
    (addWatcher s w osErr).1.closeChannels
      = mapSet s.closeChannels w.filename
          (mapGet s.closeChannels w.filename ++ [s.nextChan]) := by
  unfold addWatcher
  simp only []
  split_ifs <;> cases osErr <;> rfl

theorem mapGet_length_of_aligned {s : InotifyTracker} (h : Aligned s) (p : String) :
    (mapGet s.broadcastChannels p).length = (mapGet s.closeChannels p).length := by
  have hp := h p
  unfold mapGet
  cases hb : s.broadcastChannels p <;> cases hc : s.closeChannels p <;>
    simp_all

theorem addWatcher_aligned (s : InotifyTracker) (w : Watcher) (osErr : Option String)
    (h : Aligned s) : Aligned (addWatcher s w osErr).1 := by
  intro p
  rw [addWatcher_broadcastChannels, addWatcher_closeChannels]
  by_cases hp : p = w.filename
  · simp [mapSet, hp, mapGet_length_of_aligned h]
  · simpa [mapSet, hp] using h p

/-- Effect of a complete `RemoveWatcher` on the tables when the watcher is
found at position `i` and the tables are aligned. -/
theorem RemoveWatcher_found (s : InotifyTracker) (w : Watcher) (osErr : Option String)
    (h : Aligned s) (i : Nat)
    (hi : slicesIndex (mapGet s.broadcastChannels w.filename) w.eventsChan = some i) :
    (RemoveWatcher s w osErr).1.broadcastChannels
      = mapSet s.broadcastChannels w.filename
          ((mapGet s.broadcastChannels w.filename).eraseIdx i) ∧
    (RemoveWatcher s w osErr).1.closeChannels
      = mapSet s.closeChannels w.filename
          ((mapGet s.closeChannels w.filename).eraseIdx i) := by
  obtain ⟨h1, h2, -⟩ := slicesIndex_some hi
  have hlen := mapGet_length_of_aligned h w.filename
  have h3 : i < (mapGet s.closeChannels w.filename).length := by omega
  obtain ⟨c, hc⟩ : ∃ c, (mapGet s.closeChannels w.filename).get? i = some c :=
    ⟨_, List.get?_eq_get h3⟩
  have hl : RemoveWatcherLocked s w = Except.ok { s with
      closed := s.closed ++ [c]
      closeChannels := mapSet s.closeChannels w.filename
        (slicesDelete (mapGet s.closeChannels w.filename) i) } := by
    unfold RemoveWatcherLocked
    simp only [hi, gt_iff_lt, h3, if_true, hc]
  simp only [RemoveWatcher, hl, removeWatcher, hi, h2, slicesDelete]
  split_ifs <;> cases osErr <;> exact ⟨rfl, rfl⟩

theorem RemoveWatcher_aligned (s : InotifyTracker) (w : Watcher) (osErr : Option String)
    (h : Aligned s) : Aligned (RemoveWatcher s w osErr).1 := by
  cases hi : slicesIndex (mapGet s.broadcastChannels w.filename) w.eventsChan with
  | none =>
    have := (RemoveWatcher_not_found_aux s w osErr (slicesIndex_eq_none.mp hi))
    rw [this]
    exact h
  | some i =>
    obtain ⟨hb, hc⟩ := RemoveWatcher_found s w osErr h i hi
    intro p
    rw [hb, hc]
    by_cases hp : p = w.filename
    · simp [mapSet, hp, List.length_eraseIdx, mapGet_length_of_aligned h]
    · simpa [mapSet, hp] using h p

theorem Cleanup_aligned (s : InotifyTracker) (filename : String) (osErr : Option String)
    (h : Aligned s) : Aligned (Cleanup s filename osErr).1 := by
  intro p
  by_cases hp : p = filename
  · simp [Cleanup, cleanup, CleanupLocked, watcherRemove, mapDelete, hp]
  · simpa [Cleanup, cleanup, CleanupLocked, watcherRemove, mapDelete, hp] using h p

theorem settled_aligned {s : InotifyTracker} (h : Settled s) : Aligned s := by
  induction h with
  | init => intro p; rfl
  | create fp s filename osErr _ ih =>
    exact addWatcher_aligned _ _ _ (fun p => ih p)
  | remove s w osErr _ ih => exact RemoveWatcher_aligned s w osErr ih
  | cleanup s filename osErr _ ih => exact Cleanup_aligned s filename osErr ih

/-! ## C7 : alignment of the two tables -/

/-- C7, as stated, fails: after `CreateWatcher("/d/f")` the locked section of
`RemoveWatcher` (phase 1) leaves `broadcastChannels["/d/f"]` with one entry
and `closeChannels["/d/f"]` present and empty; after phase 2 both keys are
still present, each with an empty list. -/
theorem tables_after_removal_phases :
    (∃ s, RemoveWatcherLocked (CreateWatcher unixPaths goRun "/d/f" none).1 ⟨0, "/d/f"⟩
        = Except.ok s ∧
      s.broadcastChannels "/d/f" = some [0] ∧ s.closeChannels "/d/f" = some []) ∧
    (RemoveWatcher (CreateWatcher unixPaths goRun "/d/f" none).1 ⟨0, "/d/f"⟩
      none).1.broadcastChannels "/d/f" = some [] ∧
    (RemoveWatcher (CreateWatcher unixPaths goRun "/d/f" none).1 ⟨0, "/d/f"⟩
      none).1.closeChannels "/d/f" = some [] := by
  refine ⟨⟨_, rfl, ?_⟩, ?_, ?_⟩ <;> decide

/-- C7, amended: in every state reached from the empty state by operations
that run to completion one after the other (`CreateWatcher`, both phases of
`RemoveWatcher`, both phases of `Cleanup`), for every path the key is present
in both tables or in neither and the two lists have the same length; and the
removal of the only subscriber of a path leaves the key present in both
tables with an empty list. -/
theorem settled_tables_aligned (s : InotifyTracker) (h : Settled s) :
    (∀ p, (s.broadcastChannels p).map List.length = (s.closeChannels p).map List.length) ∧
    (∀ p, (mapGet s.broadcastChannels p).length = (mapGet s.closeChannels p).length) ∧
    (∀ (w : Watcher) (osErr : Option String),
      s.broadcastChannels w.filename = some [w.eventsChan] →
      (RemoveWatcher s w osErr).1.broadcastChannels w.filename = some [] ∧
      (RemoveWatcher s w osErr).1.closeChannels w.filename = some []) := by
  have ha := settled_aligned h
  refine ⟨ha, mapGet_length_of_aligned ha, ?_⟩
  intro w osErr hw
  have hg : mapGet s.broadcastChannels w.filename = [w.eventsChan] := by simp [mapGet, hw]
  have hi : slicesIndex (mapGet s.broadcastChannels w.filename) w.eventsChan = some 0 := by
    simp [hg, slicesIndex]
  obtain ⟨hb, hc⟩ := RemoveWatcher_found s w osErr ha 0 hi
  have hl := mapGet_length_of_aligned ha w.filename
  rw [hb, hc, hg]
  rw [hg] at hl
  cases hcc : mapGet s.closeChannels w.filename with
  | nil => simp [hcc] at hl
  | cons c cs =>
    have : cs = [] := by
      rw [hcc] at hl
      simpa using hl.symm
    simp [mapSet, this]

/-- Witness of C7, amended: two subscribers of `/d/f`, then the removal of
the first. -/
theorem settled_tables_aligned_witness :
    (mapGet (RemoveWatcher (CreateWatcher unixPaths (CreateWatcher unixPaths goRun
        "/d/f" none).1 "/d/f" none).1 ⟨0, "/d/f"⟩ none).1.broadcastChannels "/d/f").length
      = (mapGet (RemoveWatcher (CreateWatcher unixPaths (CreateWatcher unixPaths goRun
        "/d/f" none).1 "/d/f" none).1 ⟨0, "/d/f"⟩ none).1.closeChannels "/d/f").length :=
  (settled_tables_aligned _
    (Settled.remove _ ⟨0, "/d/f"⟩ none
      (Settled.create unixPaths _ "/d/f" none
        (Settled.create unixPaths _ "/d/f" none Settled.init)))).2.1 "/d/f"

/-! ## C1 : one OS watch per path -/

theorem mapGet_mapSet_self (m : String → Option (List Chan)) (k : String) (v : List Chan) :
    mapGet (mapSet m k v) k = v := by
  simp [mapGet, mapSet]

theorem CreateWatcher_effect (fp : PathLib) (s : InotifyTracker) (P : String) :
    (CreateWatcher fp s P none).2.1 = ⟨s.nextChan, fp.Clean P⟩ ∧
    (CreateWatcher fp s P none).2.2 = none ∧
    (CreateWatcher fp s P none).1.nextChan = s.nextChan + 2 ∧
    mapGet (CreateWatcher fp s P none).1.broadcastChannels (fp.Clean P)
      = mapGet s.broadcastChannels (fp.Clean P) ++ [s.nextChan] ∧
    (CreateWatcher fp s P none).1.osCalls
      = s.osCalls ++
        (if mapGet s.broadcastChannels (fp.Clean P) = [] then [OsCall.add (fp.Clean P)]
          else []) := by
  cases hl : mapGet s.broadcastChannels (fp.Clean P) with
  | nil =>
    simp [CreateWatcher, addWatcher, watcherAdd, hl, mapGet_mapSet_self]
  | cons c cs =>
    simp [CreateWatcher, addWatcher, watcherAdd, hl, mapGet_mapSet_self]

theorem createMany_effect (fp : PathLib) (P : String) (n : Nat) (s : InotifyTracker) :
    (createMany fp P n s).2.length = n ∧
    (∀ w ∈ (createMany fp P n s).2, w.filename = fp.Clean P) ∧
    mapGet (createMany fp P n s).1.broadcastChannels (fp.Clean P)
      = mapGet s.broadcastChannels (fp.Clean P)
          ++ (createMany fp P n s).2.map Watcher.eventsChan ∧
    (createMany fp P n s).1.osCalls
      = s.osCalls ++
        (if mapGet s.broadcastChannels (fp.Clean P) = [] ∧ 0 < n
          then [OsCall.add (fp.Clean P)] else []) := by
  induction n generalizing s with
  | zero => simp [createMany]
  | succ n ih =>
    obtain ⟨e1, -, -, e4, e5⟩ := CreateWatcher_effect fp s P
    obtain ⟨i1, i2, i3, i4⟩ := ih (CreateWatcher fp s P none).1
    refine ⟨by simp [createMany, i1], ?_, ?_, ?_⟩
    · intro w hw
      simp only [createMany, List.mem_cons] at hw
      rcases hw with rfl | hw
      · simp [e1]
      · exact i2 w hw
    · simp only [createMany, List.map_cons, i3, e4, e1, List.append_assoc,
        List.singleton_append]
    · simp only [createMany, i4, e4, e5]
      by_cases hl : mapGet s.broadcastChannels (fp.Clean P) = [] <;> simp [hl]

theorem RemoveWatcher_effect (s : InotifyTracker) (w : Watcher) (i : Nat)
    (hi : slicesIndex (mapGet s.broadcastChannels w.filename) w.eventsChan = some i) :
    (RemoveWatcher s w none).2 = none ∧
    mapGet (RemoveWatcher s w none).1.broadcastChannels w.filename
      = (mapGet s.broadcastChannels w.filename).eraseIdx i ∧
    (RemoveWatcher s w none).1.osCalls
      = s.osCalls ++
        (if ((mapGet s.broadcastChannels w.filename).eraseIdx i).length = 0
          then [OsCall.remove w.filename] else []) := by
  obtain ⟨h1, h2, -⟩ := slicesIndex_some hi
  have hl : ∃ s1, RemoveWatcherLocked s w = Except.ok s1 ∧
      s1.broadcastChannels = s.broadcastChannels ∧ s1.osCalls = s.osCalls := by
    unfold RemoveWatcherLocked
    simp only [hi]
    split_ifs
    · split
      · exact ⟨_, rfl, rfl, rfl⟩
      · exact ⟨_, rfl, rfl, rfl⟩
    · exact ⟨_, rfl, rfl, rfl⟩
  obtain ⟨s1, hs1, hb, ho⟩ := hl
  simp only [RemoveWatcher, hs1, removeWatcher, hb, hi, h2, slicesDelete, mapGet_mapSet_self]
  split_ifs <;> simp [watcherRemove, mapGet_mapSet_self, ho]

theorem removeMany_effect (p : String) (order : List Watcher) (s : InotifyTracker)
    (hf : ∀ w ∈ order, w.filename = p)
    (hperm : (order.map Watcher.eventsChan).Perm (mapGet s.broadcastChannels p)) :
    (∀ k, k < order.length → (removeMany s (order.take k)).1.osCalls = s.osCalls) ∧
    (order ≠ [] → (removeMany s order).1.osCalls = s.osCalls ++ [OsCall.remove p]) ∧
    (∀ e ∈ (removeMany s order).2, e = none) := by
  induction order generalizing s with
  | nil => simp [removeMany]
  | cons w rest ih =>
    have hw : w.filename = p := hf w (List.mem_cons_self _ _)
    simp only [List.map_cons] at hperm
    obtain ⟨hmem, hrest⟩ := List.cons_perm_iff_perm_erase.mp hperm
    rw [← hw] at hmem hrest
    obtain ⟨i, hi⟩ := slicesIndex_of_mem hmem
    obtain ⟨-, -, herase⟩ := slicesIndex_some hi
    obtain ⟨r1, r2, r3⟩ := RemoveWatcher_effect s w i hi
    rw [herase] at r2 r3
    have hlen : ((mapGet s.broadcastChannels w.filename).erase w.eventsChan).length
        = rest.length := by
      rw [← hrest.length_eq, List.length_map]
    rw [hlen] at r3
    obtain ⟨j1, j2, j3⟩ := ih (RemoveWatcher s w none).1
      (fun x hx => hf x (List.mem_cons_of_mem _ hx))
      (by rw [← hw, r2]; exact hrest)
    refine ⟨?_, ?_, ?_⟩
    · intro k hk
      cases k with
      | zero => simp [removeMany]
      | succ k =>
        have hk1 : k < rest.length := by simpa using hk
        have hne : rest.length ≠ 0 := by omega
        simp only [List.take_succ_cons, removeMany]
        rw [j1 k hk1, r3]
        simp [hne]
    · intro _
      simp only [removeMany]
      cases rest with
      | nil => simp [removeMany, r3, hw]
      | cons x xs =>
        rw [j2 (by simp), r3]
        simp
    · intro e he
      simp only [removeMany, List.mem_cons] at he
      rcases he with rfl | he
      · exact r1
      · exact j3 e he

/-- C1: from the empty dispatcher, with every OS call succeeding, for every
path `P` and `N ≥ 1`: before the first `CreateWatcher(P)` no OS call has been
issued; after `k` calls, for every `1 ≤ k ≤ N`, the log of OS calls is the
single `Add` of `P` issued by the first call. Then, the `N` watchers being
removed by `RemoveWatcher` in an arbitrary order: after each of the first
`N - 1` removals the log is still that single `Add`; after the last removal
it is the `Add` followed by one `Remove` of `P`; and every removal returns
the nil error. -/
theorem one_os_watch_per_path (fp : PathLib) (P : String) (N : Nat) (hN : 1 ≤ N)
    (order : List Watcher) (hperm : order.Perm (createMany fp P N goRun).2) :
    (createMany fp P 0 goRun).1.osCalls = [] ∧
    (∀ k, 1 ≤ k → k ≤ N →
      (createMany fp P k goRun).1.osCalls = [OsCall.add (fp.Clean P)]) ∧
    (∀ k, k < N →
      (removeMany (createMany fp P N goRun).1 (order.take k)).1.osCalls
        = [OsCall.add (fp.Clean P)]) ∧
    (removeMany (createMany fp P N goRun).1 order).1.osCalls
      = [OsCall.add (fp.Clean P), OsCall.remove (fp.Clean P)] ∧
    (∀ e ∈ (removeMany (createMany fp P N goRun).1 order).2, e = none) := by
  have hg : mapGet goRun.broadcastChannels (fp.Clean P) = [] := rfl
  have hcalls : ∀ k, 1 ≤ k →
      (createMany fp P k goRun).1.osCalls = [OsCall.add (fp.Clean P)] := by
    intro k hk
    have hk0 : 0 < k := hk
    rw [(createMany_effect fp P k goRun).2.2.2, hg]
    simp [hk0, goRun]
  obtain ⟨c1, c2, c3, -⟩ := createMany_effect fp P N goRun
  have hlen : order.length = N := by rw [hperm.length_eq, c1]
  have hne : order ≠ [] := by
    intro h
    rw [h] at hlen
    simp at hlen
    omega
  obtain ⟨m1, m2, m3⟩ := removeMany_effect (fp.Clean P) order (createMany fp P N goRun).1
    (fun w hw => c2 w (hperm.subset hw))
    (by rw [c3, hg, List.nil_append]; exact hperm.map _)
  refine ⟨rfl, fun k hk _ => hcalls k hk, ?_, ?_, m3⟩
  · intro k hk
    rw [m1 k (by omega), hcalls N hN]
  · rw [m2 hne, hcalls N hN]
    rfl

/-- Witness of C1: three subscribers of `/d/f`, removed in the order second,
third, first. -/
theorem one_os_watch_per_path_witness :
    (removeMany (createMany unixPaths "/d/f" 3 goRun).1
        ([⟨2, "/d/f"⟩, ⟨4, "/d/f"⟩, ⟨0, "/d/f"⟩].take 2)).1.osCalls = [OsCall.add "/d/f"] ∧
    (removeMany (createMany unixPaths "/d/f" 3 goRun).1
        [⟨2, "/d/f"⟩, ⟨4, "/d/f"⟩, ⟨0, "/d/f"⟩]).1.osCalls
      = [OsCall.add "/d/f", OsCall.remove "/d/f"] :=
  have h := one_os_watch_per_path unixPaths "/d/f" 3 (by decide)
    [⟨2, "/d/f"⟩, ⟨4, "/d/f"⟩, ⟨0, "/d/f"⟩] (by decide)
  ⟨h.2.2.1 2 (by decide), h.2.2.2.1⟩

end Watch
